import Mathlib

/-!
Verification of the temporal & identity core of the `event-pulse` repository.

The Rust source is shallowly embedded: each Rust function is translated into
an executable Lean definition. Machine integers (`i64`, `i32`, `u32`) are
modelled as `Int`/`Nat`; the one place where a narrowing cast occurs in the
source (`as i32` in `Epoch::calculate_days_since`) is modelled explicitly by
`wrap32`. A Rust `panic!`/`expect` is modelled by returning `none` from an
`Option`-valued function; `Result<T, E>` is modelled by `Except E T`.
-/

namespace EventPulse

/-! ## Character and digit utilities (model of `str`/`u32`/`i64` parsing) -/

/-- Value of an ASCII digit character. -/
def digitVal (c : Char) : Nat := c.toNat - 48

/-- The decimal digit character for `d < 10` (Rust's integer `Display`). -/
def digitChar : Nat → Char
  | 0 => '0'
  | 1 => '1'
  | 2 => '2'
  | 3 => '3'
  | 4 => '4'
  | 5 => '5'
  | 6 => '6'
  | 7 => '7'
  | 8 => '8'
  | _ => '9'

/-- Big-endian decimal digits of a natural number, as Rust's `Display` for
unsigned integers renders them (`0` renders as `"0"`). -/
def natDigits (n : Nat) : List Char :=
  if _h : n < 10 then [digitChar n]
  else natDigits (n / 10) ++ [digitChar (n % 10)]
decreasing_by exact Nat.div_lt_self (by omega) (by omega)

/-- Numeric value of a big-endian list of digit characters. -/
def valOfDigits (l : List Char) : Nat :=
  l.foldl (fun a c => 10 * a + digitVal c) 0

/-- Rust `i64`/`u64` `Display` of a natural number. -/
def natRepr (n : Nat) : String := ⟨natDigits n⟩

/-- Rust `i64` `Display` of a signed integer. -/
def intRepr (i : Int) : String :=
  if i < 0 then "-" ++ natRepr i.natAbs else natRepr i.toNat

/-- Model of Rust `str::parse::<u32>()`: an optional leading `+` sign, then at
least one ASCII digit, failing on overflow past `u32::MAX`. -/
def parseU32 (s : String) : Option Nat :=
  let ds := match s.data with
    | '+' :: r => r
    | r => r
  if ds ≠ [] ∧ ds.all Char.isDigit ∧ valOfDigits ds < 2 ^ 32 then
    some (valOfDigits ds)
  else none

/-- Model of Rust `str::parse::<i64>()`: an optional `+`/`-` sign, then at
least one ASCII digit, failing on overflow past the `i64` range. -/
def parseI64 (s : String) : Option Int :=
  match s.data with
  | '-' :: r =>
    if r ≠ [] ∧ r.all Char.isDigit ∧ valOfDigits r ≤ 2 ^ 63 then
      some (-(valOfDigits r : Int))
    else none
  | '+' :: r =>
    if r ≠ [] ∧ r.all Char.isDigit ∧ valOfDigits r < 2 ^ 63 then
      some (valOfDigits r : Int)
    else none
  | r =>
    if r ≠ [] ∧ r.all Char.isDigit ∧ valOfDigits r < 2 ^ 63 then
      some (valOfDigits r : Int)
    else none

/-- Model of Rust `str::trim` (the source only ever trims ASCII whitespace in
the inputs this development reasons about). -/
def trimStr (s : String) : String :=
  ⟨((s.data.dropWhile Char.isWhitespace).reverse.dropWhile Char.isWhitespace).reverse⟩

/-- Fuel-driven worker for `splitStr`; the fuel is an upper bound on the input
length, so it never runs out on the initial call. -/
def splitAux (sep : List Char) : Nat → List Char → List Char → List (List Char)
  | 0, acc, l => [acc.reverse ++ l]
  | _ + 1, acc, [] => [acc.reverse]
  | fuel + 1, acc, c :: rest =>
    if sep.isPrefixOf (c :: rest) then
      acc.reverse :: splitAux sep fuel [] ((c :: rest).drop sep.length)
    else
      splitAux sep fuel (c :: acc) rest

/-- Model of Rust `str::split` with a non-empty literal separator, collected
into a vector of fields. -/
def splitStr (sep : String) (s : String) : List String :=
  (splitAux sep.data (s.data.length + 1) [] s.data).map (fun l => ⟨l⟩)

/-- Model of Rust `str::trim_start_matches('M')`: drop every leading `M`. -/
def trimStartMatchesM (s : String) : String :=
  ⟨s.data.dropWhile (fun c => c == 'M')⟩

/-- Byte length of a string, Rust's `str::len` (UTF-8 byte count). -/
def utf8Len (s : String) : Nat :=
  s.data.foldl (fun n c => n + c.utf8Size) 0

/-! ## Error type, from `src/error.rs` (`AppError`) -/

/-- The application error enum from `src/error.rs`. The `StructsyError`
variant wraps a storage-layer error; only its display message matters here. -/
inductive AppError where
  | StructsyError (msg : String)
  | InvalidInputString (msg : String)
  | ParseError (msg : String)
deriving DecidableEq, Repr

instance {ε α : Type} [DecidableEq ε] [DecidableEq α] : DecidableEq (Except ε α)
  | .error e, .error f => decidable_of_iff (e = f) (by simp)
  | .error _, .ok _ => isFalse (by intro h; cases h)
  | .ok _, .error _ => isFalse (by intro h; cases h)
  | .ok a, .ok b => decidable_of_iff (a = b) (by simp)

/-- The `thiserror`-derived `Display` implementation of `AppError`. -/
def AppError.display : AppError → String
  | .StructsyError m => "Structsy error: " ++ m
  | .InvalidInputString m => "Invalid string format: " ++ m
  | .ParseError m => "Parse error: " ++ m

/-! ## Epoch data model, from `src/models/epoch.rs` -/

/-- `CalendarData { amount: i64, coefficient: i64 }`. -/
structure CalendarData where
  amount : Int
  coefficient : Int
deriving DecidableEq, Repr

/-- The `Epoch` enum: a time range in units of years, months, weeks, days, or
the distinguished single day. -/
inductive Epoch where
  | SingleDay
  | Year (cd : CalendarData)
  | Month (cd : CalendarData)
  | Week (cd : CalendarData)
  | Day (cd : CalendarData)
deriving DecidableEq, Repr

/-- Is this character one of the unit letters of the epoch regex class
`[dwmy]`? -/
def isUnitChar (c : Char) : Bool :=
  c == 'd' || c == 'w' || c == 'm' || c == 'y'

/-- Is this character in the regex class `[1-9]`? -/
def isNonZeroDigit (c : Char) : Bool :=
  c.isDigit && c != '0'

/-- Split a list into its longest prefix of ASCII digits and the rest
(the greedy behaviour of the regex fragment `[0-9]*`). -/
def takeDigits : List Char → List Char × List Char
  | [] => ([], [])
  | c :: r =>
    if c.isDigit then
      let (ds, rest) := takeDigits r
      (c :: ds, rest)
    else ([], c :: r)

/-- Match the optional regex group `(([1-9]{1}[0-9]*)x)?` at the head of the
remaining input, returning the captured coefficient or the default `1`. -/
def matchCoeff (l : List Char) : Nat :=
  match l with
  | [] => 1
  | c :: r =>
    if isNonZeroDigit c then
      match takeDigits r with
      | (ds, 'x' :: _) => valOfDigits (c :: ds)
      | _ => 1
    else 1

/-- Try to match the epoch regex `(([1-9]{1}[0-9]*)([dwmy]))(([1-9]{1}[0-9]*)x)?`
anchored at the head of the input, returning the captured
(amount, unit, coefficient). -/
def tryMatchEpoch (l : List Char) : Option (Nat × Char × Nat) :=
  match l with
  | [] => none
  | c :: r =>
    if isNonZeroDigit c then
      match takeDigits r with
      | (ds, u :: rest) =>
        if isUnitChar u then some (valOfDigits (c :: ds), u, matchCoeff rest)
        else none
      | (_, []) => none
    else none

/-- Leftmost match of the epoch regex over the whole input, as
`Regex::captures` finds it. -/
def findEpochMatch : List Char → Option (Nat × Char × Nat)
  | [] => none
  | c :: rest =>
    match tryMatchEpoch (c :: rest) with
    | some r => some r
    | none => findEpochMatch rest

/-- `parse_epoch` from `src/models/epoch.rs`: on a regex match, the captured
unit, amount and coefficient (the numeric captures are parsed with
`.parse::<i64>().unwrap()`, whose overflow panic is modelled by `none`);
with no match, the lenient fallback `("d", 1, 1)`. -/
def parse_epoch (s : String) : Option (Char × Int × Int) :=
  match findEpochMatch s.data with
  | some (a, u, k) =>
    if a < 2 ^ 63 ∧ k < 2 ^ 63 then some (u, (a : Int), (k : Int)) else none
  | none => some ('d', 1, 1)

/-- `Epoch::from_str` from `src/models/epoch.rs`. The outer `Option` models
the `unwrap` panic inside `parse_epoch`; the `Except` is the function's
`Result<Epoch, AppError>`. -/
def Epoch.from_str (s : String) : Option (Except AppError Epoch) :=
  (parse_epoch s).map fun r =>
    match r with
    | (u, amount, coefficient) =>
      match u with
      | 'y' => .ok (.Year ⟨amount, coefficient⟩)
      | 'm' => .ok (.Month ⟨amount, coefficient⟩)
      | 'w' => .ok (.Week ⟨amount, coefficient⟩)
      | 'd' =>
        if s = "1d1x" ∨ s = "1d" then .ok .SingleDay
        else .ok (.Day ⟨amount, coefficient⟩)
      | _ => .error (.InvalidInputString "Encounterd invalid epoch token unit from string")

/-- The `Display` implementation for `Epoch` from `src/models/epoch.rs`. -/
def Epoch.display : Epoch → String
  | .Year cd => intRepr cd.amount ++ "y" ++ intRepr cd.coefficient ++ "x"
  | .Month cd => intRepr cd.amount ++ "m" ++ intRepr cd.coefficient ++ "x"
  | .Week cd => intRepr cd.amount ++ "w" ++ intRepr cd.coefficient ++ "x"
  | .Day cd => intRepr cd.amount ++ "d" ++ intRepr cd.coefficient ++ "x"
  | .SingleDay => "1d1x"

/-! ## Calendar model (chrono `NaiveDate`/`NaiveTime`/`NaiveDateTime`) -/

/-- Proleptic-Gregorian leap-year rule, as chrono implements it. -/
def isLeap (y : Int) : Bool :=
  (y % 4 == 0 && y % 100 != 0) || y % 400 == 0

/-- Length of a month of the proleptic Gregorian calendar. -/
def daysInMonth (y m : Int) : Int :=
  if m = 2 then (if isLeap y then 29 else 28)
  else if m = 4 ∨ m = 6 ∨ m = 9 ∨ m = 11 then 30
  else 31

/-- Does `chrono::NaiveDate::from_ymd_opt(y, m, d)` return `Some`? chrono
additionally restricts the year to `MIN_YEAR ..= MAX_YEAR`
(`i32::MIN >> 13` to `i32::MAX >> 13`). -/
def validYmd (y m d : Int) : Bool :=
  decide (-262144 ≤ y ∧ y ≤ 262143 ∧ 1 ≤ m ∧ m ≤ 12 ∧ 1 ≤ d ∧ d ≤ daysInMonth y m)

/-- Does `chrono::NaiveTime::from_hms_opt(h, mi, s)` return `Some`? The Rust
arguments are `u32`, hence the non-negativity conjuncts. -/
def validHms (h mi s : Int) : Bool :=
  decide (0 ≤ h ∧ h < 24 ∧ 0 ≤ mi ∧ mi < 60 ∧ 0 ≤ s ∧ s < 60)

/-- Day number of a proleptic-Gregorian date counted from 1970-01-01
(Howard Hinnant's `days_from_civil`), the day count underlying chrono's
`signed_duration_since(..).num_days()` for datetimes with equal
times-of-day. -/
def daysFromCivil (y m d : Int) : Int :=
  let y2 := if m ≤ 2 then y - 1 else y
  let era := Int.fdiv y2 400
  let yoe := y2 - era * 400
  let mp := (m + 9) % 12
  let doy := (153 * mp + 2) / 5 + d - 1
  let doe := yoe * 365 + yoe / 4 - yoe / 100 + doy
  era * 146097 + doe - 719468

/-- A `chrono::NaiveDateTime` at whole-second resolution, as the parsing and
duration code of this repository constructs them. -/
structure NaiveDateTime where
  year : Int
  month : Int
  day : Int
  hour : Int
  minute : Int
  second : Int
deriving DecidableEq, Repr

/-- Two's-complement truncation of an `i64` value to `i32`, the `as i32`
casts in `Epoch::calculate_days_since`. -/
def wrap32 (n : Int) : Int :=
  (n + 2 ^ 31) % 2 ^ 32 - 2 ^ 31

/-- The `for _ in 0..coefficient` loop of the `Month` arm of
`Epoch::calculate_days_since`: each iteration adds `amount` to the month and,
when the month exceeds 12, subtracts 12 once and increments the year. -/
def monthWalk (amount : Int) : Nat → Int → Int → Int × Int
  | 0, y, m => (y, m)
  | k + 1, y, m =>
    let m2 := m + amount
    if m2 > 12 then monthWalk amount k (y + 1) (m2 - 12)
    else monthWalk amount k y m2

/-- `Epoch::calculate_days_since` from `src/models/epoch.rs`. The two
`expect` calls on `from_ymd_opt`/`from_hms_opt` panic when the computed
year/month/day triple (or the copied time-of-day) is invalid; the panic is
modelled by `none`. A negative `coefficient` makes the Rust range
`0..coefficient` empty, hence `Int.toNat`. -/
def Epoch.calculate_days_since (e : Epoch) (since : NaiveDateTime) : Option Int :=
  match e with
  | .Month cd =>
    let t := monthWalk (wrap32 cd.amount) cd.coefficient.toNat since.year since.month
    if validYmd t.1 t.2 since.day && validHms since.hour since.minute since.second then
      some (daysFromCivil t.1 t.2 since.day - daysFromCivil since.year since.month since.day)
    else none
  | .Year cd =>
    let ey := since.year + wrap32 (cd.coefficient * cd.amount)
    if validYmd ey since.month since.day && validHms since.hour since.minute since.second then
      some (daysFromCivil ey since.month since.day - daysFromCivil since.year since.month since.day)
    else none
  | .Week cd => some (cd.amount * cd.coefficient * 7)
  | .Day cd => some (cd.amount * cd.coefficient)
  | .SingleDay => some 1

/-! ## MilitaryTime, from `src/models/time.rs` -/

/-- `MilitaryTime { hour: u32, minute: u32, seconds: u32 }`. -/
structure MilitaryTime where
  hour : Nat
  minute : Nat
  seconds : Nat
deriving DecidableEq, Repr

/-- `MilitaryTime::from_str`: trim, split on `:`, require exactly three
fields, and parse each as `u32` in order hour, minute, seconds. -/
def MilitaryTime.from_str (input : String) : Except AppError MilitaryTime :=
  match splitStr ":" (trimStr input) with
  | [p0, p1, p2] =>
    match parseU32 p0 with
    | none => .error (.ParseError "Failed to parse military time hour")
    | some hour =>
      match parseU32 p1 with
      | none => .error (.ParseError "Failed to parse military time minute")
      | some minute =>
        match parseU32 p2 with
        | none => .error (.ParseError "Failed to parse military time seconds")
        | some seconds => .ok ⟨hour, minute, seconds⟩
  | _ => .error (.InvalidInputString "Invalid military time format")

/-- `MilitaryTime::to_naive_time`: `NaiveTime::from_hms_opt(..).expect(..)`.
The `expect` panic on out-of-range components is modelled by `none`; the
`some` value is the time-of-day triple carried by the `NaiveTime`. -/
def MilitaryTime.to_naive_time (t : MilitaryTime) : Option (Nat × Nat × Nat) :=
  if t.hour < 24 ∧ t.minute < 60 ∧ t.seconds < 60 then
    some (t.hour, t.minute, t.seconds)
  else none

/-! ## SignalTrigger, from `src/models/signal.rs` -/

/-- `SignalTrigger { time: MilitaryTime, interval_seconds: i64 }`. -/
structure SignalTrigger where
  time : MilitaryTime
  interval_seconds : Int
deriving DecidableEq, Repr

/-- `SignalTrigger::from_str`: trim, split on the literal `"::I"`, require
exactly two segments, strip leading `M` markers from the first segment and
parse it as a `MilitaryTime`, and parse the second segment as an `i64`. -/
def SignalTrigger.from_str (input : String) : Except AppError SignalTrigger :=
  match splitStr "::I" (trimStr input) with
  | [timePart, intervalPart] =>
    match MilitaryTime.from_str (trimStartMatchesM timePart) with
    | .error err =>
      .error (.ParseError ("Failed to parse signal trigger time: " ++ err.display))
    | .ok time =>
      match parseI64 intervalPart with
      | none => .error (.ParseError "Failed to parse signal trigger interval")
      | some interval_seconds => .ok ⟨time, interval_seconds⟩
  | _ => .error (.InvalidInputString "Invalid signal trigger format")

/-! ## Identifier prefix, from `src/models/uid.rs` -/

/-- The error enum `UniqueIdentifierError` from `src/models/uid.rs`. The
`FactoryCreationError` payload is the wrapped `pxid` error's message. -/
inductive UniqueIdentifierError where
  | InvalidUniqueIdentifier (msg : String)
  | FactoryCreationError (msg : String)
  | InvalidPrefix
deriving DecidableEq, Repr

/-- The newtype `Prefix(String)` from `src/models/uid.rs` (renamed here). -/
structure PrefixVal where
  val : String
deriving DecidableEq, Repr

/-- `Prefix::new` from `src/models/uid.rs`: reject only a prefix whose byte
length (`str::len`) exceeds 4. -/
def PrefixVal.new (s : String) : Except UniqueIdentifierError PrefixVal :=
  if utf8Len s > 4 then .error .InvalidPrefix
  else .ok ⟨s⟩

/-! ## Notification rescheduling, from `src/models/notify.rs` -/

/-- The `SendFrequency` enum. -/
inductive SendFrequency where
  | OnTrigger
  | DayPrior
  | Daily
  | Weekly
  | BiWeekly
  | Monthly
  | Quarterly
deriving DecidableEq, Repr

/-- The slice of `EventNotify` state that `edit_delivery_frequency` reads and
writes. A `DateTime<Utc>` is modelled as a count of seconds; the remaining
fields of the Rust struct (id, scheduled event, transport method, recipients,
trigger, timestamps) are untouched by the operation and omitted. -/
structure EventNotify where
  delivery_frequency : SendFrequency
  start_date : Int
deriving DecidableEq, Repr

/-- `from_duration_to_datetime` from `src/models/time.rs`: datetime plus
duration. -/
def from_duration_to_datetime (datetime duration : Int) : Int :=
  datetime + duration

/-- Seconds in `chrono::Duration::try_days(n)`. -/
def tryDays (n : Int) : Int := n * 86400

/-- Seconds in `chrono::Duration::try_weeks(n)`. -/
def tryWeeks (n : Int) : Int := n * 7 * 86400

/-- `EventNotify::edit_delivery_frequency` from `src/models/notify.rs`: store
the new frequency, then recompute `start_date` from the `start_date`
argument according to the (just stored) frequency. -/
def EventNotify.edit_delivery_frequency (self : EventNotify) (start_date : Int)
    (deliver_frequency : SendFrequency) : EventNotify :=
  { self with
    delivery_frequency := deliver_frequency,
    start_date :=
      match deliver_frequency with
      | .OnTrigger => start_date
      | .DayPrior => start_date
      | .Daily => from_duration_to_datetime start_date (tryDays 1)
      | .Weekly => from_duration_to_datetime start_date (tryWeeks 1)
      | .BiWeekly => from_duration_to_datetime start_date (tryWeeks 2)
      | .Monthly => from_duration_to_datetime start_date (tryDays 30)
      | .Quarterly => from_duration_to_datetime start_date (tryDays 90) }

/-! ## Spec-side definitions, used to compare the source against the spec's
wording -/

/-- Modelled from the spec: one step of §4.4's month walk, "each step adding
`amount` months with 12-month rollover incrementing the year". -/
def specMonthStep (amount : Int) (p : Int × Int) : Int × Int :=
  if p.2 + amount > 12 then (p.1 + 1, p.2 + amount - 12)
  else (p.1, p.2 + amount)

/-- Modelled from the spec: §4.6's rescheduling offset table, in seconds. -/
def specRescheduleOffset : SendFrequency → Int
  | .OnTrigger => 0
  | .DayPrior => 0
  | .Daily => 86400
  | .Weekly => 7 * 86400
  | .BiWeekly => 14 * 86400
  | .Monthly => 30 * 86400
  | .Quarterly => 90 * 86400

/-- Well-formedness of an `Epoch` value as the Rust type carries it: both
`i64` fields are at least 1 (the invariant the grammar produces) and within
the `i64` range. -/
def epochWf : Epoch → Bool
  | .SingleDay => true
  | .Year cd => decide (1 ≤ cd.amount ∧ cd.amount < 2 ^ 63 ∧ 1 ≤ cd.coefficient ∧ cd.coefficient < 2 ^ 63)
  | .Month cd => decide (1 ≤ cd.amount ∧ cd.amount < 2 ^ 63 ∧ 1 ≤ cd.coefficient ∧ cd.coefficient < 2 ^ 63)
  | .Week cd => decide (1 ≤ cd.amount ∧ cd.amount < 2 ^ 63 ∧ 1 ≤ cd.coefficient ∧ cd.coefficient < 2 ^ 63)
  | .Day cd => decide (1 ≤ cd.amount ∧ cd.amount < 2 ^ 63 ∧ 1 ≤ cd.coefficient ∧ cd.coefficient < 2 ^ 63)

/-! ## Lemmas about decimal rendering and the epoch regex -/

theorem string_data_append (a b : String) : (a ++ b).data = a.data ++ b.data := by
  cases a
  cases b
  rfl

theorem digitVal_digitChar {d : Nat} (h : d < 10) : digitVal (digitChar d) = d := by
  interval_cases d <;> rfl

theorem isDigit_digitChar {d : Nat} (h : d < 10) : (digitChar d).isDigit = true := by
  interval_cases d <;> rfl

theorem isNonZeroDigit_digitChar {d : Nat} (h0 : 0 < d) (h : d < 10) :
    isNonZeroDigit (digitChar d) = true := by
  interval_cases d <;> rfl

theorem natDigits_all_isDigit (n : Nat) : ∀ c ∈ natDigits n, c.isDigit = true := by
  induction n using Nat.strong_induction_on with
  | _ n ih =>
    rw [natDigits]
    split
    · intro c hc
      simp only [List.mem_singleton] at hc
      subst hc
      exact isDigit_digitChar (by omega)
    · intro c hc
      rcases List.mem_append.mp hc with h | h
      · exact ih (n / 10) (Nat.div_lt_self (by omega) (by omega)) c h
      · simp only [List.mem_singleton] at h
        subst h
        exact isDigit_digitChar (Nat.mod_lt _ (by omega))

theorem natDigits_head (n : Nat) (h : 0 < n) :
    ∃ c t, natDigits n = c :: t ∧ isNonZeroDigit c = true := by
  induction n using Nat.strong_induction_on with
  | _ n ih =>
    rw [natDigits]
    split
    · exact ⟨digitChar n, [], rfl, isNonZeroDigit_digitChar h (by omega)⟩
    · have h10 : 10 ≤ n := by omega
      obtain ⟨c, t, heq, hnz⟩ :=
        ih (n / 10) (Nat.div_lt_self (by omega) (by omega)) (by omega)
      exact ⟨c, t ++ [digitChar (n % 10)], by rw [heq]; rfl, hnz⟩

theorem valOfDigits_append_single (l : List Char) (c : Char) :
    valOfDigits (l ++ [c]) = 10 * valOfDigits l + digitVal c := by
  simp [valOfDigits, List.foldl_append]

theorem valOfDigits_natDigits (n : Nat) : valOfDigits (natDigits n) = n := by
  induction n using Nat.strong_induction_on with
  | _ n ih =>
    rw [natDigits]
    split
    · simp [valOfDigits]
      exact digitVal_digitChar (by omega)
    · rw [valOfDigits_append_single,
        ih (n / 10) (Nat.div_lt_self (by omega) (by omega)),
        digitVal_digitChar (Nat.mod_lt _ (by omega))]
      omega

theorem takeDigits_append_stop (ds : List Char) (c : Char) (r : List Char)
    (hds : ∀ a ∈ ds, a.isDigit = true) (hc : c.isDigit = false) :
    takeDigits (ds ++ c :: r) = (ds, c :: r) := by
  induction ds with
  | nil => simp [takeDigits, hc]
  | cons a t iht =>
    have ha : a.isDigit = true := hds a (by simp)
    simp only [List.cons_append, takeDigits, ha, if_true, List.append_eq]
    rw [iht (fun b hb => hds b (by simp [hb]))]

theorem matchCoeff_render (k : Nat) (hk : 0 < k) (suffix : List Char) :
    matchCoeff (natDigits k ++ 'x' :: suffix) = k := by
  obtain ⟨c, t, heq, hnz⟩ := natDigits_head k hk
  have hdig : ∀ a ∈ t, a.isDigit = true := by
    intro a ha
    exact natDigits_all_isDigit k a (by rw [heq]; exact List.mem_cons_of_mem _ ha)
  rw [heq, List.cons_append]
  simp only [matchCoeff, hnz, if_true]
  rw [takeDigits_append_stop t 'x' suffix hdig rfl]
  have : valOfDigits (c :: t) = k := by rw [← heq]; exact valOfDigits_natDigits k
  simpa using this

theorem tryMatchEpoch_render (a k : Nat) (u : Char) (ha : 0 < a) (hk : 0 < k)
    (hu1 : u.isDigit = false) (hu2 : isUnitChar u = true) :
    tryMatchEpoch (natDigits a ++ u :: (natDigits k ++ ['x'])) = some (a, u, k) := by
  obtain ⟨c, t, heq, hnz⟩ := natDigits_head a ha
  have hdig : ∀ b ∈ t, b.isDigit = true := by
    intro b hb
    exact natDigits_all_isDigit a b (by rw [heq]; exact List.mem_cons_of_mem _ hb)
  rw [heq, List.cons_append]
  simp only [tryMatchEpoch, hnz, if_true]
  rw [takeDigits_append_stop t u (natDigits k ++ ['x']) hdig hu1]
  simp only [hu2, if_true]
  have hval : valOfDigits (c :: t) = a := by rw [← heq]; exact valOfDigits_natDigits a
  have hco : matchCoeff (natDigits k ++ ['x']) = k := by
    simpa using matchCoeff_render k hk []
  rw [hval, hco]

theorem findEpochMatch_of_tryMatch {l : List Char} {r : Nat × Char × Nat}
    (h : tryMatchEpoch l = some r) : findEpochMatch l = some r := by
  cases l with
  | nil => simp [tryMatchEpoch] at h
  | cons c rest => simp [findEpochMatch, h]

theorem intRepr_data_nonneg (i : Int) (h : 0 ≤ i) :
    (intRepr i).data = natDigits i.toNat := by
  rw [intRepr, if_neg (by omega)]
  rfl

theorem display_data (cd : CalendarData) (u : Char) (unitStr : String)
    (hunit : unitStr.data = [u]) (ha : 0 ≤ cd.amount) (hk : 0 ≤ cd.coefficient) :
    (intRepr cd.amount ++ unitStr ++ intRepr cd.coefficient ++ "x").data =
      natDigits cd.amount.toNat ++ u :: (natDigits cd.coefficient.toNat ++ ['x']) := by
  rw [string_data_append, string_data_append, string_data_append,
    intRepr_data_nonneg _ ha, intRepr_data_nonneg _ hk, hunit]
  show _ = natDigits cd.amount.toNat ++ ([u] ++ (natDigits cd.coefficient.toNat ++ "x".data))
  rw [List.append_assoc, List.append_assoc]

theorem findEpochMatch_display (s : String) (a k : Int) (u : Char)
    (hs : s.data = natDigits a.toNat ++ u :: (natDigits k.toNat ++ ['x']))
    (ha : 1 ≤ a) (hk : 1 ≤ k) (hu1 : u.isDigit = false) (hu2 : isUnitChar u = true) :
    findEpochMatch s.data = some (a.toNat, u, k.toNat) := by
  rw [hs]
  exact findEpochMatch_of_tryMatch
    (tryMatchEpoch_render a.toNat k.toNat u (by omega) (by omega) hu1 hu2)

theorem parse_epoch_display (s : String) (a k : Int) (u : Char)
    (hs : s.data = natDigits a.toNat ++ u :: (natDigits k.toNat ++ ['x']))
    (ha : 1 ≤ a) (ha2 : a < 2 ^ 63) (hk : 1 ≤ k) (hk2 : k < 2 ^ 63)
    (hu1 : u.isDigit = false) (hu2 : isUnitChar u = true) :
    parse_epoch s = some (u, a, k) := by
  rw [parse_epoch, findEpochMatch_display s a k u hs ha hk hu1 hu2]
  have hbound : a.toNat < 2 ^ 63 ∧ k.toNat < 2 ^ 63 := by omega
  show (if a.toNat < 2 ^ 63 ∧ k.toNat < 2 ^ 63 then
      some (u, ((a.toNat : Nat) : Int), ((k.toNat : Nat) : Int)) else none) = some (u, a, k)
  rw [if_pos hbound, Int.toNat_of_nonneg (by omega : (0:Int) ≤ a),
    Int.toNat_of_nonneg (by omega : (0:Int) ≤ k)]

theorem display_ne_of_cd {cd : CalendarData} {u : Char} {s : String}
    (hs : s.data = natDigits cd.amount.toNat ++ u :: (natDigits cd.coefficient.toNat ++ ['x']))
    (ha : 1 ≤ cd.amount) (hk : 1 ≤ cd.coefficient)
    (hu1 : u.isDigit = false) (hu2 : isUnitChar u = true)
    {w : String} (hw : findEpochMatch w.data = some (1, u, 1)) (hcd : cd ≠ ⟨1, 1⟩) :
    s ≠ w := by
  intro heq
  have h2 : findEpochMatch s.data = findEpochMatch w.data := by rw [heq]
  rw [findEpochMatch_display s cd.amount cd.coefficient u hs ha hk hu1 hu2, hw] at h2
  have h3 : cd.amount.toNat = 1 ∧ cd.coefficient.toNat = 1 := by
    have := Option.some.inj h2
    exact ⟨congrArg Prod.fst this, congrArg Prod.snd (congrArg Prod.snd this)⟩
  have hx : cd.amount = 1 := by omega
  have hy : cd.coefficient = 1 := by omega
  exact hcd (by cases cd; simp_all)

/-- C10: for every well-formed `Epoch` (both `i64` fields at least 1),
parsing the `Display` rendering returns the same value, except that
`Day {1,1}` renders as `"1d1x"` and normalizes back to `SingleDay`;
`SingleDay` itself renders as `"1d1x"` and round-trips to `SingleDay`. -/
theorem epoch_display_roundtrip (e : Epoch) (h : epochWf e = true) :
    Epoch.from_str (Epoch.display e) =
      some (.ok (if e = .Day ⟨1, 1⟩ then .SingleDay else e)) := by
  cases e with
  | SingleDay => decide
  | Year cd =>
    simp only [epochWf, decide_eq_true_eq] at h
    obtain ⟨ha, ha2, hk, hk2⟩ := h
    have hs := display_data cd 'y' "y" rfl (by omega) (by omega)
    have hp := parse_epoch_display (Epoch.display (.Year cd)) cd.amount cd.coefficient 'y'
      hs ha ha2 hk hk2 rfl rfl
    rw [Epoch.from_str, hp]
    rfl
  | Month cd =>
    simp only [epochWf, decide_eq_true_eq] at h
    obtain ⟨ha, ha2, hk, hk2⟩ := h
    have hs := display_data cd 'm' "m" rfl (by omega) (by omega)
    have hp := parse_epoch_display (Epoch.display (.Month cd)) cd.amount cd.coefficient 'm'
      hs ha ha2 hk hk2 rfl rfl
    rw [Epoch.from_str, hp]
    rfl
  | Week cd =>
    simp only [epochWf, decide_eq_true_eq] at h
    obtain ⟨ha, ha2, hk, hk2⟩ := h
    have hs := display_data cd 'w' "w" rfl (by omega) (by omega)
    have hp := parse_epoch_display (Epoch.display (.Week cd)) cd.amount cd.coefficient 'w'
      hs ha ha2 hk hk2 rfl rfl
    rw [Epoch.from_str, hp]
    rfl
  | Day cd =>
    simp only [epochWf, decide_eq_true_eq] at h
    obtain ⟨ha, ha2, hk, hk2⟩ := h
    have hs := display_data cd 'd' "d" rfl (by omega) (by omega)
    by_cases hcd : cd = ⟨1, 1⟩
    · subst hcd
      have h1 : natDigits (1 : Int).toNat = ['1'] := by
        rw [natDigits]
        rfl
      have hd : Epoch.display (.Day ⟨1, 1⟩) = "1d1x" := by
        apply String.ext
        rw [show Epoch.display (.Day ⟨1, 1⟩) =
            intRepr 1 ++ "d" ++ intRepr 1 ++ "x" from rfl,
          string_data_append, string_data_append, string_data_append,
          intRepr_data_nonneg 1 (by omega), h1]
        rfl
      rw [hd]
      decide
    · have hp := parse_epoch_display (Epoch.display (.Day cd)) cd.amount cd.coefficient 'd'
        hs ha ha2 hk hk2 rfl rfl
      have hne1 : Epoch.display (.Day cd) ≠ "1d1x" :=
        display_ne_of_cd hs ha hk rfl rfl (by decide) hcd
      have hne2 : Epoch.display (.Day cd) ≠ "1d" :=
        display_ne_of_cd hs ha hk rfl rfl (by decide) hcd
      rw [Epoch.from_str, hp]
      show some (if Epoch.display (.Day cd) = "1d1x" ∨ Epoch.display (.Day cd) = "1d"
          then Except.ok Epoch.SingleDay
          else Except.ok (Epoch.Day ⟨cd.amount, cd.coefficient⟩)) = _
      rw [if_neg (by exact fun hor => hor.elim hne1 hne2)]
      rw [if_neg (by simp [hcd])]

/-- C10 witness: instantiation at `Month {3, 4}`. -/
theorem epoch_display_roundtrip_witness :
    Epoch.from_str (Epoch.display (.Month ⟨3, 4⟩)) =
      some (.ok (if (Epoch.Month ⟨3, 4⟩) = .Day ⟨1, 1⟩ then .SingleDay else .Month ⟨3, 4⟩)) :=
  epoch_display_roundtrip (.Month ⟨3, 4⟩) (by decide)

/-! ## Month-walk lemmas and the `days_since` claims -/

theorem monthWalk_eq_specSteps (amount : Int) (k : Nat) (y m : Int) :
    monthWalk amount k y m = (specMonthStep amount)^[k] (y, m) := by
  induction k generalizing y m with
  | zero => rfl
  | succ k ih =>
    rw [Function.iterate_succ_apply]
    simp only [monthWalk, specMonthStep]
    by_cases h : m + amount > 12
    · rw [if_pos h, if_pos h, ih]
    · rw [if_neg h, if_neg h, ih]

/-- C1: on `Month {amount, coefficient}` the operation walks forward
`coefficient` steps, each adding `amount` months and rolling a month above 12
into the next year (the source loop `monthWalk` coincides with the spec's
step function iterated), holds day-of-month and time-of-day fixed, and
returns the signed day count from the reference to the target; in particular
`days_since(Month({1,1}), 2024-02-01T00:00:00) = 29`, and `SingleDay` always
yields 1. -/
theorem epoch_month_days_since_walk (cd : CalendarData) (s : NaiveDateTime)
    (hh : validHms s.hour s.minute s.second = true)
    (hv : validYmd (monthWalk (wrap32 cd.amount) cd.coefficient.toNat s.year s.month).1
        (monthWalk (wrap32 cd.amount) cd.coefficient.toNat s.year s.month).2 s.day = true) :
    (Epoch.calculate_days_since (.Month cd) s =
      some (daysFromCivil (monthWalk (wrap32 cd.amount) cd.coefficient.toNat s.year s.month).1
          (monthWalk (wrap32 cd.amount) cd.coefficient.toNat s.year s.month).2 s.day
        - daysFromCivil s.year s.month s.day))
    ∧ (∀ a k y m, monthWalk a k y m = (specMonthStep a)^[k] (y, m))
    ∧ Epoch.calculate_days_since (.Month ⟨1, 1⟩) ⟨2024, 2, 1, 0, 0, 0⟩ = some 29
    ∧ ∀ r, Epoch.calculate_days_since .SingleDay r = some 1 := by
  refine ⟨?_, fun a k y m => monthWalk_eq_specSteps a k y m, by decide, fun r => rfl⟩
  simp only [Epoch.calculate_days_since]
  rw [hv, hh]
  rfl

/-- C1 witness: the leap-February instance `Month {1,1}` at
2024-02-01T00:00:00. -/
theorem epoch_month_days_since_walk_witness :
    (Epoch.calculate_days_since (.Month ⟨1, 1⟩) ⟨2024, 2, 1, 0, 0, 0⟩ =
      some (daysFromCivil (monthWalk (wrap32 1) (1 : Int).toNat 2024 2).1
          (monthWalk (wrap32 1) (1 : Int).toNat 2024 2).2 1
        - daysFromCivil 2024 2 1))
    ∧ (∀ a k y m, monthWalk a k y m = (specMonthStep a)^[k] (y, m))
    ∧ Epoch.calculate_days_since (.Month ⟨1, 1⟩) ⟨2024, 2, 1, 0, 0, 0⟩ = some 29
    ∧ ∀ r, Epoch.calculate_days_since .SingleDay r = some 1 :=
  epoch_month_days_since_walk ⟨1, 1⟩ ⟨2024, 2, 1, 0, 0, 0⟩ (by decide) (by decide)

/-- C2 counterexample: for `Month {1,1}` from 2024-01-31 (Jan 31 + 1 month =
Feb 31, invalid) the operation does not return any error value to the caller:
it hits the `expect` on `NaiveDate::from_ymd_opt` and panics (modelled as
`none`). The claimed `CalendarConstructionError` does not exist anywhere in
the code: `AppError` has only `StructsyError`, `InvalidInputString` and
`ParseError`. -/
theorem calculate_days_since_invalid_no_error :
    Epoch.calculate_days_since (.Month ⟨1, 1⟩) ⟨2024, 1, 31, 0, 0, 0⟩ = none := by
  decide

/-- C2 amended: whenever the month walk (or the year jump) produces an
invalid calendar triple, the operation panics via `expect` (modelled as
`none`) instead of returning a typed error; in particular it never silently
clamps the day-of-month to a valid one. -/
theorem calculate_days_since_invalid_panics (cd : CalendarData) (s : NaiveDateTime) :
    (validYmd (monthWalk (wrap32 cd.amount) cd.coefficient.toNat s.year s.month).1
        (monthWalk (wrap32 cd.amount) cd.coefficient.toNat s.year s.month).2 s.day = false →
      Epoch.calculate_days_since (.Month cd) s = none)
    ∧ (validYmd (s.year + wrap32 (cd.coefficient * cd.amount)) s.month s.day = false →
      Epoch.calculate_days_since (.Year cd) s = none) := by
  constructor <;> intro h <;> simp only [Epoch.calculate_days_since] <;> rw [h] <;> rfl

/-- C2 witness: Mar 31 + 1 month (Apr 31) and Feb 29 + 1 year (2025 Feb 29)
both panic. -/
theorem calculate_days_since_invalid_panics_witness :
    Epoch.calculate_days_since (.Month ⟨1, 1⟩) ⟨2024, 3, 31, 0, 0, 0⟩ = none
    ∧ Epoch.calculate_days_since (.Year ⟨1, 1⟩) ⟨2024, 2, 29, 0, 0, 0⟩ = none :=
  ⟨(calculate_days_since_invalid_panics ⟨1, 1⟩ ⟨2024, 3, 31, 0, 0, 0⟩).1 (by decide),
   (calculate_days_since_invalid_panics ⟨1, 1⟩ ⟨2024, 2, 29, 0, 0, 0⟩).2 (by decide)⟩

/-! ## Epoch parsing claims -/

theorem tryMatchEpoch_unit {l : List Char} {a : Nat} {u : Char} {k : Nat}
    (h : tryMatchEpoch l = some (a, u, k)) : isUnitChar u = true := by
  cases l with
  | nil => simp [tryMatchEpoch] at h
  | cons c r =>
    simp only [tryMatchEpoch] at h
    by_cases h1 : isNonZeroDigit c = true
    · rw [if_pos h1] at h
      rcases htd : takeDigits r with ⟨ds, rest⟩
      cases rest with
      | nil =>
        simp only [htd] at h
        exact absurd h (by simp)
      | cons u2 rest2 =>
        simp only [htd] at h
        by_cases h2 : isUnitChar u2 = true
        · rw [if_pos h2] at h
          have h3 := Option.some.inj h
          have hu : u2 = u := congrArg (fun p => p.2.1) h3
          rwa [← hu]
        · rw [if_neg h2] at h
          simp at h
    · rw [if_neg h1] at h
      simp at h

theorem findEpochMatch_unit {l : List Char} {a : Nat} {u : Char} {k : Nat}
    (h : findEpochMatch l = some (a, u, k)) : isUnitChar u = true := by
  induction l with
  | nil => simp [findEpochMatch] at h
  | cons c r ih =>
    simp only [findEpochMatch] at h
    rcases htm : tryMatchEpoch (c :: r) with _ | r2
    · rw [htm] at h
      exact ih h
    · rw [htm] at h
      have : r2 = (a, u, k) := Option.some.inj h
      subst this
      exact tryMatchEpoch_unit htm

/-- C3 counterexample: the input `"3q"` has an unrecognized unit letter, yet
parsing does not fail with `InvalidInputString` — the regex simply finds no
match and the lenient fallback produces `Day {1,1}`. -/
theorem epoch_from_str_unit_fallback_ok :
    Epoch.from_str "3q" = some (Except.ok (Epoch.Day ⟨1, 1⟩)) := by decide

/-- C3 amended: whenever the regex finds no match — which includes every
input with an unrecognized unit letter, since the regex group only matches
`[dwmy]` — parsing silently falls back to unit `d`, amount 1, coefficient 1;
and no input ever reaches the `InvalidInputString` branch: every terminating
parse returns `Ok` (the only non-`Ok` outcome is the `unwrap` panic on an
`i64`-overflowing numeral, modelled by the outer `none`). -/
theorem epoch_from_str_lenient_total :
    (∀ s r, Epoch.from_str s = some r → ∃ e, r = Except.ok e)
    ∧ (∀ s, findEpochMatch s.data = none →
        Epoch.from_str s = some (Except.ok (Epoch.Day ⟨1, 1⟩))) := by
  constructor
  · intro s r h
    rw [Epoch.from_str, parse_epoch] at h
    rcases hm : findEpochMatch s.data with _ | ⟨a, u, k⟩
    · simp only [hm, Option.map_some'] at h
      have heq := Option.some.inj h
      refine ⟨if s = "1d1x" ∨ s = "1d" then .SingleDay else .Day ⟨1, 1⟩, ?_⟩
      rw [← heq]
      show (if s = "1d1x" ∨ s = "1d" then Except.ok Epoch.SingleDay
          else Except.ok (Epoch.Day ⟨1, 1⟩)) = _
      split <;> rfl
    · simp only [hm] at h
      by_cases hb : a < 2 ^ 63 ∧ k < 2 ^ 63
      · rw [if_pos hb] at h
        simp only [Option.map_some'] at h
        have heq := Option.some.inj h
        have hu := findEpochMatch_unit hm
        have hcases : u = 'd' ∨ u = 'w' ∨ u = 'm' ∨ u = 'y' := by
          have h4 := hu
          simp only [isUnitChar, Bool.or_eq_true, beq_iff_eq] at h4
          tauto
        rcases hcases with rfl | rfl | rfl | rfl
        · refine ⟨if s = "1d1x" ∨ s = "1d" then .SingleDay else .Day ⟨(a : Int), (k : Int)⟩, ?_⟩
          rw [← heq]
          show (if s = "1d1x" ∨ s = "1d" then Except.ok Epoch.SingleDay
              else Except.ok (Epoch.Day ⟨(a : Int), (k : Int)⟩)) = _
          split <;> rfl
        · exact ⟨.Week ⟨(a : Int), (k : Int)⟩, by rw [← heq]; rfl⟩
        · exact ⟨.Month ⟨(a : Int), (k : Int)⟩, by rw [← heq]; rfl⟩
        · exact ⟨.Year ⟨(a : Int), (k : Int)⟩, by rw [← heq]; rfl⟩
      · rw [if_neg hb] at h
        simp at h
  · intro s h
    rw [Epoch.from_str, parse_epoch, h]
    simp only [Option.map_some']
    have h1 : s ≠ "1d1x" := by
      rintro rfl
      exact absurd h (by decide)
    have h2 : s ≠ "1d" := by
      rintro rfl
      exact absurd h (by decide)
    show some (if s = "1d1x" ∨ s = "1d" then Except.ok Epoch.SingleDay
        else Except.ok (Epoch.Day ⟨1, 1⟩)) = _
    rw [if_neg (fun hor => hor.elim h1 h2)]

/-- C3 witness: the lenient half at `"zzz"` (no regex match) and the
totality half at `"3m4x"`. -/
theorem epoch_from_str_lenient_total_witness :
    (∃ e, (Except.ok (Epoch.Month ⟨3, 4⟩) : Except AppError Epoch) = Except.ok e)
    ∧ Epoch.from_str "zzz" = some (Except.ok (Epoch.Day ⟨1, 1⟩)) :=
  ⟨epoch_from_str_lenient_total.1 "3m4x" (Except.ok (Epoch.Month ⟨3, 4⟩)) (by decide),
   epoch_from_str_lenient_total.2 "zzz" (by decide)⟩

/-- C4: `"1d"` and `"1d1x"` both normalize to the `SingleDay` variant, which
is distinct from `Day {1,1}`. -/
theorem epoch_singleday_normalization :
    Epoch.from_str "1d" = some (.ok .SingleDay)
    ∧ Epoch.from_str "1d1x" = some (.ok .SingleDay)
    ∧ Epoch.SingleDay ≠ Epoch.Day ⟨1, 1⟩ := by decide

/-! ## Rescheduling claims -/

/-- C5: rescheduling stores the new frequency and sets the new start date to
the passed start plus the fixed per-frequency offset — 0 for OnTrigger and
DayPrior, 1, 7, 14, 30 and 90 days (in seconds) for Daily, Weekly, BiWeekly,
Monthly and Quarterly. -/
theorem edit_delivery_frequency_table (st : EventNotify) (sd : Int) :
    (∀ f, (st.edit_delivery_frequency sd f).delivery_frequency = f)
    ∧ (∀ f, (st.edit_delivery_frequency sd f).start_date = sd + specRescheduleOffset f) := by
  constructor <;> intro f <;> cases f <;>
    simp [EventNotify.edit_delivery_frequency, specRescheduleOffset,
      from_duration_to_datetime, tryDays, tryWeeks]

/-- C6: feeding the mutated start date back into the operation keeps
advancing it — `n` Weekly calls displace the start date by `n * 7` days, and
two Weekly calls in sequence from the mutated state leave it a cumulative 14
days past the original baseline. -/
theorem edit_delivery_frequency_not_idempotent (st : EventNotify) :
    (∀ n : Nat,
      ((fun s : EventNotify => s.edit_delivery_frequency s.start_date .Weekly)^[n] st).start_date
        = st.start_date + n * (7 * 86400))
    ∧ ((st.edit_delivery_frequency st.start_date .Weekly).edit_delivery_frequency
          (st.edit_delivery_frequency st.start_date .Weekly).start_date .Weekly).start_date
        = st.start_date + 14 * 86400 := by
  have hstep : ∀ z : EventNotify,
      (z.edit_delivery_frequency z.start_date .Weekly).start_date = z.start_date + 7 * 86400 := by
    intro z
    simp only [EventNotify.edit_delivery_frequency, from_duration_to_datetime, tryWeeks]
    ring
  constructor
  · intro n
    induction n with
    | zero => simp
    | succ n ih =>
      simp only [Function.iterate_succ_apply']
      rw [hstep, ih]
      push_cast
      ring
  · rw [hstep, hstep]
    ring

/-! ## SignalTrigger parsing claims -/

/-- C7 counterexample: the interval segment is parsed as a signed `i64`, so
the negative interval `"M16:30:25::I-5"` is accepted with
`interval_seconds = -5`, where the claim requires a non-negative integer
(and hence a `ParseError` here). -/
theorem signal_trigger_negative_interval_accepted :
    SignalTrigger.from_str "M16:30:25::I-5" = .ok ⟨⟨16, 30, 25⟩, -5⟩ := by decide

theorem signal_from_str_two (input p q : String)
    (hsp : splitStr "::I" (trimStr input) = [p, q]) :
    SignalTrigger.from_str input =
      match MilitaryTime.from_str (trimStartMatchesM p) with
      | Except.error err =>
          Except.error (AppError.ParseError ("Failed to parse signal trigger time: " ++ err.display))
      | Except.ok time =>
          match parseI64 q with
          | none => Except.error (AppError.ParseError "Failed to parse signal trigger interval")
          | some interval_seconds => Except.ok ⟨time, interval_seconds⟩ := by
  unfold SignalTrigger.from_str
  rw [hsp]

/-- C7 amended: splitting on the literal `"::I"` must produce exactly two
segments or the parse fails with `InvalidInputString`; the first segment,
with leading `M` markers stripped, must parse as a `MilitaryTime` and the
second as a **signed** 64-bit integer, each sub-parse failure yielding
`ParseError`; `"M16:30:25::I86400"` parses to time 16:30:25 with interval
86400, and the four malformed inputs all return errors. -/
theorem signal_trigger_parse_spec :
    (SignalTrigger.from_str "M16:30:25::I86400" = .ok ⟨⟨16, 30, 25⟩, 86400⟩)
    ∧ (∀ input, (splitStr "::I" (trimStr input)).length ≠ 2 →
        SignalTrigger.from_str input = .error (.InvalidInputString "Invalid signal trigger format"))
    ∧ (∀ input p q e, splitStr "::I" (trimStr input) = [p, q] →
        MilitaryTime.from_str (trimStartMatchesM p) = .error e →
        SignalTrigger.from_str input =
          .error (.ParseError ("Failed to parse signal trigger time: " ++ e.display)))
    ∧ (∀ input p q t, splitStr "::I" (trimStr input) = [p, q] →
        MilitaryTime.from_str (trimStartMatchesM p) = .ok t →
        parseI64 q = none →
        SignalTrigger.from_str input =
          .error (.ParseError "Failed to parse signal trigger interval"))
    ∧ (∀ input p q t iv, splitStr "::I" (trimStr input) = [p, q] →
        MilitaryTime.from_str (trimStartMatchesM p) = .ok t →
        parseI64 q = some iv →
        SignalTrigger.from_str input = .ok ⟨t, iv⟩)
    ∧ (∃ e1, SignalTrigger.from_str "::I86400" = .error e1)
    ∧ (∃ e2, SignalTrigger.from_str "M16:30:25::" = .error e2)
    ∧ (∃ e3, SignalTrigger.from_str "::" = .error e3)
    ∧ (∃ e4, SignalTrigger.from_str "M16:30:25::Iinvalid" = .error e4) := by
  refine ⟨by decide, ?_, ?_, ?_, ?_,
    ⟨AppError.ParseError
      "Failed to parse signal trigger time: Invalid string format: Invalid military time format",
      by decide⟩,
    ⟨AppError.InvalidInputString "Invalid signal trigger format", by decide⟩,
    ⟨AppError.InvalidInputString "Invalid signal trigger format", by decide⟩,
    ⟨AppError.ParseError "Failed to parse signal trigger interval", by decide⟩⟩
  · intro input hlen
    rcases hsp : splitStr "::I" (trimStr input) with _ | ⟨p, _ | ⟨q, _ | ⟨r3, t3⟩⟩⟩
    · unfold SignalTrigger.from_str
      rw [hsp]
    · unfold SignalTrigger.from_str
      rw [hsp]
    · exact absurd (by rw [hsp]; rfl) hlen
    · unfold SignalTrigger.from_str
      rw [hsp]
  · intro input p q e hsp hmt
    rw [signal_from_str_two input p q hsp, hmt]
  · intro input p q t hsp hmt hiv
    rw [signal_from_str_two input p q hsp, hmt, hiv]
  · intro input p q t iv hsp hmt hiv
    rw [signal_from_str_two input p q hsp, hmt, hiv]

/-- C7 witness: each general clause instantiated at a concrete input. -/
theorem signal_trigger_parse_spec_witness :
    SignalTrigger.from_str "::" = .error (.InvalidInputString "Invalid signal trigger format")
    ∧ SignalTrigger.from_str "::I86400" =
      .error (.ParseError ("Failed to parse signal trigger time: "
        ++ (AppError.InvalidInputString "Invalid military time format").display))
    ∧ SignalTrigger.from_str "M16:30:25::Iinvalid" =
      .error (.ParseError "Failed to parse signal trigger interval")
    ∧ SignalTrigger.from_str "M16:30:25::I86400" = .ok ⟨⟨16, 30, 25⟩, 86400⟩ :=
  ⟨signal_trigger_parse_spec.2.1 "::" (by decide),
   signal_trigger_parse_spec.2.2.1 "::I86400" "" "86400" _ (by decide) (by decide),
   signal_trigger_parse_spec.2.2.2.1 "M16:30:25::Iinvalid" "M16:30:25" "invalid" ⟨16, 30, 25⟩
     (by decide) (by decide) (by decide),
   signal_trigger_parse_spec.2.2.2.2.1 "M16:30:25::I86400" "M16:30:25" "86400" ⟨16, 30, 25⟩ 86400
     (by decide) (by decide) (by decide)⟩

/-! ## MilitaryTime parsing claims -/

/-- C8 counterexample: a wrong colon-field count fails with
`InvalidInputString`, not with the `ParseError` the claim requires. -/
theorem military_time_wrong_count_error_kind :
    MilitaryTime.from_str "16:30" = .error (.InvalidInputString "Invalid military time format") := by
  decide

theorem military_from_str_three (input p0 p1 p2 : String)
    (hsp : splitStr ":" (trimStr input) = [p0, p1, p2]) :
    MilitaryTime.from_str input =
      match parseU32 p0 with
      | none => Except.error (AppError.ParseError "Failed to parse military time hour")
      | some hour =>
        match parseU32 p1 with
        | none => Except.error (AppError.ParseError "Failed to parse military time minute")
        | some minute =>
          match parseU32 p2 with
          | none => Except.error (AppError.ParseError "Failed to parse military time seconds")
          | some seconds => Except.ok ⟨hour, minute, seconds⟩ := by
  unfold MilitaryTime.from_str
  rw [hsp]

/-- C8 amended: a string that does not split into exactly three colon fields
fails with `InvalidInputString` (not `ParseError`); a field that fails `u32`
parsing fails with `ParseError`; no hour/minute/second range bounds are
enforced at parse time — out-of-range values are accepted — and it is the
conversion to a calendar time-of-day that fails (panics via `expect`,
modelled as `none`) exactly when `hour > 23 ∨ minute > 59 ∨ second > 59`. -/
theorem military_time_parse_lazy_bounds :
    (∀ input, (splitStr ":" (trimStr input)).length ≠ 3 →
      MilitaryTime.from_str input = .error (.InvalidInputString "Invalid military time format"))
    ∧ (∀ input p0 p1 p2, splitStr ":" (trimStr input) = [p0, p1, p2] → parseU32 p0 = none →
      MilitaryTime.from_str input = .error (.ParseError "Failed to parse military time hour"))
    ∧ (∀ input p0 p1 p2 hr, splitStr ":" (trimStr input) = [p0, p1, p2] →
      parseU32 p0 = some hr → parseU32 p1 = none →
      MilitaryTime.from_str input = .error (.ParseError "Failed to parse military time minute"))
    ∧ (∀ input p0 p1 p2 hr mi, splitStr ":" (trimStr input) = [p0, p1, p2] →
      parseU32 p0 = some hr → parseU32 p1 = some mi → parseU32 p2 = none →
      MilitaryTime.from_str input = .error (.ParseError "Failed to parse military time seconds"))
    ∧ (∀ input p0 p1 p2 hr mi se, splitStr ":" (trimStr input) = [p0, p1, p2] →
      parseU32 p0 = some hr → parseU32 p1 = some mi → parseU32 p2 = some se →
      MilitaryTime.from_str input = .ok ⟨hr, mi, se⟩)
    ∧ MilitaryTime.from_str "25:99:99" = .ok ⟨25, 99, 99⟩
    ∧ (∀ t : MilitaryTime,
        t.to_naive_time = none ↔ (23 < t.hour ∨ 59 < t.minute ∨ 59 < t.seconds)) := by
  refine ⟨?_, ?_, ?_, ?_, ?_, by decide, ?_⟩
  · intro input hlen
    rcases hsp : splitStr ":" (trimStr input) with _ | ⟨a, _ | ⟨b, _ | ⟨c, _ | ⟨d, t4⟩⟩⟩⟩
    · unfold MilitaryTime.from_str
      rw [hsp]
    · unfold MilitaryTime.from_str
      rw [hsp]
    · unfold MilitaryTime.from_str
      rw [hsp]
    · exact absurd (by rw [hsp]; rfl) hlen
    · unfold MilitaryTime.from_str
      rw [hsp]
  · intro input p0 p1 p2 hsp h0
    rw [military_from_str_three input p0 p1 p2 hsp, h0]
  · intro input p0 p1 p2 hr hsp h0 h1
    rw [military_from_str_three input p0 p1 p2 hsp, h0, h1]
  · intro input p0 p1 p2 hr mi hsp h0 h1 h2
    rw [military_from_str_three input p0 p1 p2 hsp, h0, h1, h2]
  · intro input p0 p1 p2 hr mi se hsp h0 h1 h2
    rw [military_from_str_three input p0 p1 p2 hsp, h0, h1, h2]
  · intro t
    rw [MilitaryTime.to_naive_time]
    by_cases hb : t.hour < 24 ∧ t.minute < 60 ∧ t.seconds < 60
    · rw [if_pos hb]
      simp only [reduceCtorEq, false_iff]
      omega
    · rw [if_neg hb]
      simp only [true_iff]
      omega

/-- C8 witness: each general clause instantiated at a concrete input. -/
theorem military_time_parse_lazy_bounds_witness :
    MilitaryTime.from_str "16:30" = .error (.InvalidInputString "Invalid military time format")
    ∧ MilitaryTime.from_str "aa:1:2" = .error (.ParseError "Failed to parse military time hour")
    ∧ MilitaryTime.from_str "1:bb:2" = .error (.ParseError "Failed to parse military time minute")
    ∧ MilitaryTime.from_str "1:2:cc" = .error (.ParseError "Failed to parse military time seconds")
    ∧ MilitaryTime.from_str "16:30:25" = .ok ⟨16, 30, 25⟩
    ∧ ((⟨25, 99, 99⟩ : MilitaryTime).to_naive_time = none ↔ (23 < 25 ∨ 59 < 99 ∨ 59 < 99)) :=
  ⟨military_time_parse_lazy_bounds.1 "16:30" (by decide),
   military_time_parse_lazy_bounds.2.1 "aa:1:2" "aa" "1" "2" (by decide) (by decide),
   military_time_parse_lazy_bounds.2.2.1 "1:bb:2" "1" "bb" "2" 1 (by decide) (by decide) (by decide),
   military_time_parse_lazy_bounds.2.2.2.1 "1:2:cc" "1" "2" "cc" 1 2
     (by decide) (by decide) (by decide) (by decide),
   military_time_parse_lazy_bounds.2.2.2.2.1 "16:30:25" "16" "30" "25" 16 30 25
     (by decide) (by decide) (by decide) (by decide),
   military_time_parse_lazy_bounds.2.2.2.2.2.2 ⟨25, 99, 99⟩⟩

/-! ## Identifier prefix claims -/

/-- C9 counterexample: `Prefix::new("")` succeeds — the empty prefix is
accepted, where the claim requires a length error reporting length 0. -/
theorem prefix_new_empty_accepted : PrefixVal.new "" = .ok ⟨""⟩ := by decide

/-- C9 amended: prefix construction enforces only the upper bound — a prefix
longer than 4 bytes fails with `InvalidPrefix` (a payload-free variant that
reports no length), and every prefix of at most 4 bytes, the empty string
included, is accepted. -/
theorem prefix_new_length_check :
    (∀ s, 4 < utf8Len s → PrefixVal.new s = .error .InvalidPrefix)
    ∧ (∀ s, utf8Len s ≤ 4 → PrefixVal.new s = .ok ⟨s⟩)
    ∧ PrefixVal.new "abcdefghi" = .error .InvalidPrefix := by
  refine ⟨?_, ?_, by decide⟩
  · intro s hs
    rw [PrefixVal.new, if_pos hs]
  · intro s hs
    rw [PrefixVal.new, if_neg (by omega)]

/-- C9 witness: the bounds at 5-byte and 2-byte prefixes. -/
theorem prefix_new_length_check_witness :
    PrefixVal.new "abcde" = .error .InvalidPrefix ∧ PrefixVal.new "ab" = .ok ⟨"ab"⟩ :=
  ⟨prefix_new_length_check.1 "abcde" (by decide),
   prefix_new_length_check.2.1 "ab" (by decide)⟩

end EventPulse
